import Mathlib

/-!
Verification of the Pet CRUD service (`server/app.py`).

We shallowly embed the five Flask route handlers over an explicit store.
JSON scalar values are embedded as `JValue` (the spec scopes request
values to scalar strings, and JSON `null` must be representable because
the update handler assigns whatever value the body supplies).  A request
body is an association list of key/value pairs; `getKey` mirrors Python
`dict.get` and `hasKey` mirrors the `in` operator.

The storage layer (`models.py`) is not part of the handler sources, so
its id allocation is modelled from the spec: an auto-increment primary
key starting at 1, held as the `nextId` counter of `DB`.
-/

/-- A JSON scalar value: `null` or a string. -/
inductive JValue where
  | null : JValue
  | str : String → JValue
deriving DecidableEq, Repr

/-- Python truthiness of a JSON scalar: `null` and `""` are falsy. -/
def JValue.truthy : JValue → Bool
  | .null => false
  | .str s => s ≠ ""

/-- A parsed JSON object body: an association list of key/value pairs. -/
abbrev Body := List (String × JValue)

/-- `data.get(k)`: the value at key `k`, if present. -/
def getKey (b : Body) (k : String) : Option JValue :=
  (b.find? (fun kv => kv.1 == k)).map (fun kv => kv.2)

/-- `k in data`: key membership. -/
def hasKey (b : Body) (k : String) : Bool :=
  (b.find? (fun kv => kv.1 == k)).isSome

/-- `data[k]`: indexing, used only where the key is known present. -/
def jindex (b : Body) (k : String) : JValue :=
  (getKey b k).getD .null

/-- Truthiness of `data.get(k)` (Python `not data.get(k)` negated):
a missing key yields `None`, which is falsy. -/
def truthyOpt : Option JValue → Bool
  | none => false
  | some v => v.truthy

/-- A persisted Pet row: `id` plus the two scalar columns.  The columns
hold whatever value the handler assigned (spec schema gives them type
string with no further constraint, so `null` is representable). -/
structure Pet where
  id : Nat
  name : JValue
  species : JValue
deriving DecidableEq, Repr

/-- The store.  `pets` is the table in insertion order; `nextId` is the
auto-increment counter.
Modelled from the spec: `models.py` is not among the handler sources;
the spec states ids are integers, unique, assigned by the storage layer
on creation and never reused, and the test suite pins the first id to 1,
so allocation is a monotone counter starting at 1. -/
structure DB where
  pets : List Pet
  nextId : Nat
deriving DecidableEq, Repr

/-- The empty store at startup. -/
def DB.empty : DB := ⟨[], 1⟩

/-- A JSON response body, as produced by `jsonify` in the handlers. -/
inductive JBody where
  | record : Nat → JValue → JValue → JBody
  | records : List (Nat × JValue × JValue) → JBody
  | error : String → JBody
  | message : String → JBody
deriving DecidableEq, Repr

/-- The record serialization `{'id': .., 'name': .., 'species': ..}`. -/
def recordOf (p : Pet) : JBody := .record p.id p.name p.species

/-- The validation condition of `create_pet`: Python
`not (not data or not data.get('name') or not data.get('species'))`,
where an absent JSON body is `None`. -/
def create_valid (data : Option Body) : Bool :=
  match data with
  | none => false
  | some b => !b.isEmpty && truthyOpt (getKey b "name") && truthyOpt (getKey b "species")

/-- `POST /pets` (`create_pet`): validate the two required fields, then
insert a new row with the storage-assigned id and echo it with 201. -/
def create_pet (db : DB) (data : Option Body) : DB × JBody × Nat :=
  if create_valid data then
    let b := data.getD []
    let pet : Pet := ⟨db.nextId, jindex b "name", jindex b "species"⟩
    ({ pets := db.pets ++ [pet], nextId := db.nextId + 1 }, recordOf pet, 201)
  else
    (db, .error "Name and species are required", 400)

/-- `GET /pets` (`get_pets`): `request.args.get('species')` is `none`
when the query parameter is absent; the handler applies the filter only
when that value is truthy (`if species_filter:`). -/
def get_pets (db : DB) (speciesFilter : Option String) : JBody × Nat :=
  let pets : List Pet :=
    match speciesFilter with
    | some f => if f ≠ "" then db.pets.filter (fun p => p.species == .str f) else db.pets
    | none => db.pets
  (.records (pets.map (fun p => (p.id, p.name, p.species))), 200)

/-- `db.session.get(Pet, pet_id)`: primary-key lookup. -/
def find_pet (db : DB) (petId : Nat) : Option Pet :=
  db.pets.find? (fun p => p.id == petId)

/-- `GET /pets/<id>` (`get_pet`). -/
def get_pet (db : DB) (petId : Nat) : JBody × Nat :=
  match find_pet db petId with
  | none => (.error "Pet not found", 404)
  | some pet => (recordOf pet, 200)

/-- `PUT/PATCH /pets/<id>` (`update_pet`): 404 when the id is absent,
otherwise assign each of `name`/`species` exactly when its key is in the
body, commit, and echo the full updated record. -/
def update_pet (db : DB) (petId : Nat) (data : Body) : DB × JBody × Nat :=
  match find_pet db petId with
  | none => (db, .error "Pet not found", 404)
  | some pet =>
    let pet1 := if hasKey data "name" then { pet with name := jindex data "name" } else pet
    let pet2 := if hasKey data "species" then { pet1 with species := jindex data "species" } else pet1
    ({ db with pets := db.pets.map (fun p => if p.id == petId then pet2 else p) },
     recordOf pet2, 200)

/-- `DELETE /pets/<id>` (`delete_pet`). -/
def delete_pet (db : DB) (petId : Nat) : DB × JBody × Nat :=
  match find_pet db petId with
  | none => (db, .error "Pet not found", 404)
  | some _ =>
    ({ db with pets := db.pets.filter (fun p => p.id != petId) },
     .message "Pet deleted successfully", 200)

/-- One client operation against the store. -/
inductive Op where
  | create : Option Body → Op
  | update : Nat → Body → Op
  | delete : Nat → Op
deriving DecidableEq, Repr

/-- The store after one operation. -/
def applyOp (db : DB) : Op → DB
  | .create d => (create_pet db d).1
  | .update i d => (update_pet db i d).1
  | .delete i => (delete_pet db i).1

/-- The store after a sequence of operations. -/
def runOps (db : DB) : List Op → DB
  | [] => db
  | op :: rest => runOps (applyOp db op) rest

/-- The body with every entry for key `k` removed. -/
def stripKey (b : Body) (k : String) : Body :=
  b.filter (fun kv => kv.1 != k)

/-- Specification of the rows produced by a run of successful creates
starting from id `startId`: the k-th row carries the k-th assigned id
and the k-th body's field values. -/
def createdPets (startId : Nat) : List (Option Body) → List Pet
  | [] => []
  | b :: rest =>
      ⟨startId, jindex (b.getD []) "name", jindex (b.getD []) "species"⟩
        :: createdPets (startId + 1) rest

/-- An operation that never supplies a JSON `null` as a field value. -/
def noNullWrites : Op → Bool
  | .update _ d => d.all (fun kv => kv.2 != JValue.null)
  | _ => true

/-- The ids handed out by the storage layer over a run, in order:
each successful create consumes the current `nextId`. -/
def assignedIds (db : DB) : List Op → List Nat
  | [] => []
  | op :: rest =>
      (match op with
       | .create d => if create_valid d then [db.nextId] else []
       | _ => []) ++ assignedIds (applyOp db op) rest

/-! ## Helper lemmas -/

theorem getKey_isEmpty_false {b : Body} {k : String} {v : JValue}
    (h : getKey b k = some v) : b.isEmpty = false := by
  cases b with
  | nil => simp [getKey] at h
  | cons hd tl => rfl

theorem truthyOpt_some_str {o : Option JValue} (h : truthyOpt o = true) :
    ∃ s : String, o = some (.str s) ∧ s ≠ "" := by
  match o with
  | none => simp [truthyOpt] at h
  | some .null => simp [truthyOpt, JValue.truthy] at h
  | some (.str s) =>
    refine ⟨s, rfl, ?_⟩
    simpa [truthyOpt, JValue.truthy] using h

/-! ## C1: successful create -/

/-- C1: when the body carries truthy `name` and `species` values, the
create handler appends a row holding exactly those values with the
storage-assigned id, returns 201, and echoes the record whose id is the
(positive) fresh id. -/
theorem create_success (db : DB) (b : Body)
    (hpos : 0 < db.nextId)
    (hn : truthyOpt (getKey b "name") = true)
    (hs : truthyOpt (getKey b "species") = true) :
    ∃ n s : String, n ≠ "" ∧ s ≠ "" ∧
      getKey b "name" = some (.str n) ∧ getKey b "species" = some (.str s) ∧
      create_pet db (some b) =
        (⟨db.pets ++ [⟨db.nextId, .str n, .str s⟩], db.nextId + 1⟩,
         JBody.record db.nextId (.str n) (.str s), 201) ∧
      0 < db.nextId := by
  obtain ⟨n, hgn, hnne⟩ := truthyOpt_some_str hn
  obtain ⟨s, hgs, hsne⟩ := truthyOpt_some_str hs
  have hval : create_valid (some b) = true := by
    simp [create_valid, getKey_isEmpty_false hgn, hn, hs]
  refine ⟨n, s, hnne, hsne, hgn, hgs, ?_, hpos⟩
  simp [create_pet, hval, recordOf, jindex, hgn, hgs]

/-- C1 witness at `{name: "Fido", species: "Dog"}` on the empty store. -/
theorem create_success_witness :
    ∃ n s : String, n ≠ "" ∧ s ≠ "" ∧
      getKey [("name", .str "Fido"), ("species", .str "Dog")] "name" = some (.str n) ∧
      getKey [("name", .str "Fido"), ("species", .str "Dog")] "species" = some (.str s) ∧
      create_pet DB.empty (some [("name", .str "Fido"), ("species", .str "Dog")]) =
        (⟨DB.empty.pets ++ [⟨DB.empty.nextId, .str n, .str s⟩], DB.empty.nextId + 1⟩,
         JBody.record DB.empty.nextId (.str n) (.str s), 201) ∧
      0 < DB.empty.nextId :=
  create_success DB.empty [("name", .str "Fido"), ("species", .str "Dog")]
    (by decide) (by decide) (by decide)

/-! ## C2: create validation -/

/-- C2: the create handler answers 400 with the fixed error body and an
unchanged store exactly when the JSON body is absent, is the empty
object, or lacks a truthy `name` or a truthy `species`. -/
theorem create_validation (db : DB) (data : Option Body) :
    create_pet db data = (db, JBody.error "Name and species are required", 400)
    ↔ (data = none ∨ ∃ b, data = some b ∧
        (b = [] ∨ truthyOpt (getKey b "name") = false ∨
          truthyOpt (getKey b "species") = false)) := by
  cases data with
  | none => simp [create_pet, create_valid]
  | some b =>
    by_cases hn : truthyOpt (getKey b "name") = true
    · by_cases hs : truthyOpt (getKey b "species") = true
      · obtain ⟨n, hgn, hne⟩ := truthyOpt_some_str hn
        have hbne : b ≠ [] := by
          intro h; subst h; simp [getKey] at hgn
        have hval : create_valid (some b) = true := by
          simp [create_valid, getKey_isEmpty_false hgn, hn, hs]
        constructor
        · intro h
          simp [create_pet, hval] at h
        · intro h
          rcases h with h | ⟨b2, hb2, h⟩
          · exact absurd h (by simp)
          · obtain rfl := Option.some.inj hb2
            rcases h with h | h | h <;> simp_all
      · have hs2 : truthyOpt (getKey b "species") = false := eq_false_of_ne_true hs
        have hval : create_valid (some b) = false := by
          simp [create_valid, hs2]
        constructor
        · intro _
          exact Or.inr ⟨b, rfl, Or.inr (Or.inr hs2)⟩
        · intro _
          simp [create_pet, hval]
    · have hn2 : truthyOpt (getKey b "name") = false := eq_false_of_ne_true hn
      have hval : create_valid (some b) = false := by
        simp [create_valid, hn2]
      constructor
      · intro _
        exact Or.inr ⟨b, rfl, Or.inr (Or.inl hn2)⟩
      · intro _
        simp [create_pet, hval]

/-! ## C3: update is a partial patch -/

/-- C3: on an existing id, the update handler replaces the record's
fields exactly where the body has the key (keeping `id` and every
omitted field), leaves every other record untouched, and answers 200
with the full updated record. -/
theorem update_partial_patch (db : DB) (petId : Nat) (data : Body) (pet : Pet)
    (hfind : find_pet db petId = some pet) :
    update_pet db petId data =
      ({ db with pets := db.pets.map (fun p =>
          if p.id == petId then
            ⟨pet.id,
             if hasKey data "name" then jindex data "name" else pet.name,
             if hasKey data "species" then jindex data "species" else pet.species⟩
          else p) },
       JBody.record pet.id
         (if hasKey data "name" then jindex data "name" else pet.name)
         (if hasKey data "species" then jindex data "species" else pet.species),
       200) := by
  by_cases h1 : hasKey data "name" <;> by_cases h2 : hasKey data "species" <;>
    simp [update_pet, hfind, h1, h2, recordOf]

/-- C3 witness: patching only `name` on a one-record store keeps
`species` and `id` and returns the updated record with 200. -/
theorem update_partial_patch_witness :
    update_pet ⟨[⟨1, .str "Fido", .str "Dog"⟩], 2⟩ 1 [("name", .str "Rex")] =
      ({ pets := [⟨1, .str "Rex", .str "Dog"⟩], nextId := 2 },
       JBody.record 1 (.str "Rex") (.str "Dog"), 200) := by
  have h := update_partial_patch ⟨[⟨1, .str "Fido", .str "Dog"⟩], 2⟩ 1
    [("name", .str "Rex")] ⟨1, .str "Fido", .str "Dog"⟩ (by decide)
  rw [h]
  decide

/-! ## C4: uniform not-found behaviour -/

/-- C4: on an id with no record, get-one, update and delete all answer
404 with the identical error body and leave the store unchanged. -/
theorem not_found_uniform (db : DB) (petId : Nat) (data : Body)
    (h : find_pet db petId = none) :
    get_pet db petId = (JBody.error "Pet not found", 404) ∧
    update_pet db petId data = (db, JBody.error "Pet not found", 404) ∧
    delete_pet db petId = (db, JBody.error "Pet not found", 404) := by
  refine ⟨?_, ?_, ?_⟩ <;> simp [get_pet, update_pet, delete_pet, h]

/-- C4 witness at id 999 on the empty store. -/
theorem not_found_uniform_witness :
    get_pet DB.empty 999 = (JBody.error "Pet not found", 404) ∧
    update_pet DB.empty 999 [("name", .str "X")] = (DB.empty, JBody.error "Pet not found", 404) ∧
    delete_pet DB.empty 999 = (DB.empty, JBody.error "Pet not found", 404) :=
  not_found_uniform DB.empty 999 [("name", .str "X")] (by decide)

/-! ## C6: delete removes exactly the addressed record -/

/-- C6: on an existing id, delete answers 200 with the fixed message,
removes every record with that id (so a subsequent get-one answers 404)
and keeps every other record. -/
theorem delete_removes (db : DB) (petId : Nat) (pet : Pet)
    (hfind : find_pet db petId = some pet) :
    delete_pet db petId =
      ({ db with pets := db.pets.filter (fun p => p.id != petId) },
       JBody.message "Pet deleted successfully", 200) ∧
    get_pet (delete_pet db petId).1 petId = (JBody.error "Pet not found", 404) ∧
    ∀ p ∈ db.pets, p.id ≠ petId → p ∈ (delete_pet db petId).1.pets := by
  have hdel : delete_pet db petId =
      ({ db with pets := db.pets.filter (fun p => p.id != petId) },
       JBody.message "Pet deleted successfully", 200) := by
    simp [delete_pet, hfind]
  refine ⟨hdel, ?_, ?_⟩
  · have hnone : find_pet (delete_pet db petId).1 petId = none := by
      rw [hdel]
      simp only [find_pet, List.find?_eq_none]
      intro p hp
      have := (List.mem_filter.mp hp).2
      simpa using this
    simp [get_pet, hnone]
  · intro p hp hne
    rw [hdel]
    simp only [List.mem_filter]
    exact ⟨hp, by simpa using hne⟩

/-- C6 witness on a two-record store: deleting id 1 keeps id 2. -/
theorem delete_removes_witness :
    delete_pet ⟨[⟨1, .str "Fido", .str "Dog"⟩, ⟨2, .str "Whiskers", .str "Cat"⟩], 3⟩ 1 =
      ({ pets := [⟨2, .str "Whiskers", .str "Cat"⟩], nextId := 3 },
       JBody.message "Pet deleted successfully", 200) ∧
    get_pet (delete_pet ⟨[⟨1, .str "Fido", .str "Dog"⟩, ⟨2, .str "Whiskers", .str "Cat"⟩], 3⟩ 1).1 1 =
      (JBody.error "Pet not found", 404) := by
  have h := delete_removes ⟨[⟨1, .str "Fido", .str "Dog"⟩, ⟨2, .str "Whiskers", .str "Cat"⟩], 3⟩ 1
    ⟨1, .str "Fido", .str "Dog"⟩ (by decide)
  exact ⟨by rw [h.1]; decide, h.2.1⟩

/-! ## C10: empty-body update is an identity -/

/-- C10: on an existing id (in a store with pairwise distinct ids, as
the primary key guarantees), an update with the empty JSON object
changes nothing and answers 200 with the record's current values. -/
theorem update_empty_identity (db : DB) (petId : Nat) (pet : Pet)
    (hnodup : (db.pets.map Pet.id).Nodup)
    (hfind : find_pet db petId = some pet) :
    update_pet db petId [] = (db, JBody.record pet.id pet.name pet.species, 200) := by
  have hmem : pet ∈ db.pets := List.mem_of_find?_eq_some hfind
  have hid : pet.id = petId := by
    have := List.find?_some hfind
    simpa using this
  have hmap : db.pets.map (fun p => if p.id = petId then pet else p) = db.pets := by
    have hpt : ∀ p ∈ db.pets, (if p.id = petId then pet else p) = p := by
      intro p hp
      by_cases h : p.id = petId
      · have hpp : p = pet :=
          List.inj_on_of_nodup_map hnodup hp hmem (by rw [h, hid])
        simp [h, hpp]
      · simp [h]
    conv_rhs => rw [← List.map_id db.pets]
    exact List.map_congr_left hpt
  simp [update_pet, hfind, hasKey, recordOf, hmap]

/-- C10 witness on a one-record store. -/
theorem update_empty_identity_witness :
    update_pet ⟨[⟨1, .str "Fido", .str "Dog"⟩], 2⟩ 1 [] =
      (⟨[⟨1, .str "Fido", .str "Dog"⟩], 2⟩,
       JBody.record 1 (.str "Fido") (.str "Dog"), 200) :=
  update_empty_identity ⟨[⟨1, .str "Fido", .str "Dog"⟩], 2⟩ 1
    ⟨1, .str "Fido", .str "Dog"⟩ (by decide) (by decide)

/-! ## C5: list filtering -/

/-- C5 counterexample: with the `species` query parameter present but
equal to the empty string, the handler's truthiness test skips the
filter, so a record whose species is `"Dog"` (not equal to the
parameter value `""`) is returned. -/
theorem list_filter_empty_param_cex :
    get_pets ⟨[⟨1, .str "Fido", .str "Dog"⟩], 2⟩ (some "") =
      (JBody.records [(1, .str "Fido", .str "Dog")], 200) ∧
    JValue.str "Dog" ≠ JValue.str "" := by
  exact ⟨by decide, by decide⟩

/-- C5 (amended): for every store, with the `species` parameter present
and non-empty, list returns exactly the records whose species equals
the parameter value character-for-character, in store order; with the
parameter absent, and likewise with the parameter present but equal to
the empty string, it returns all records; all answer 200. -/
theorem get_pets_exact_filter (db : DB) (q : String) (hq : q ≠ "") :
    get_pets db (some q) =
      (JBody.records ((db.pets.filter (fun p => p.species == .str q)).map
        (fun p => (p.id, p.name, p.species))), 200) ∧
    get_pets db none =
      (JBody.records (db.pets.map (fun p => (p.id, p.name, p.species))), 200) ∧
    get_pets db (some "") =
      (JBody.records (db.pets.map (fun p => (p.id, p.name, p.species))), 200) := by
  exact ⟨by simp [get_pets, hq], rfl, by simp [get_pets]⟩

/-- C5 witness: filtering a mixed store by `"Cat"`, and listing it with
the parameter absent or empty. -/
theorem get_pets_exact_filter_witness :
    get_pets ⟨[⟨1, .str "Fido", .str "Dog"⟩, ⟨2, .str "Whiskers", .str "Cat"⟩], 3⟩ (some "Cat") =
      (JBody.records ((([⟨1, .str "Fido", .str "Dog"⟩, ⟨2, .str "Whiskers", .str "Cat"⟩] : List Pet).filter
          (fun p => p.species == .str "Cat")).map (fun p => (p.id, p.name, p.species))), 200) ∧
    get_pets ⟨[⟨1, .str "Fido", .str "Dog"⟩, ⟨2, .str "Whiskers", .str "Cat"⟩], 3⟩ none =
      (JBody.records (([⟨1, .str "Fido", .str "Dog"⟩, ⟨2, .str "Whiskers", .str "Cat"⟩] : List Pet).map
          (fun p => (p.id, p.name, p.species))), 200) ∧
    get_pets ⟨[⟨1, .str "Fido", .str "Dog"⟩, ⟨2, .str "Whiskers", .str "Cat"⟩], 3⟩ (some "") =
      (JBody.records (([⟨1, .str "Fido", .str "Dog"⟩, ⟨2, .str "Whiskers", .str "Cat"⟩] : List Pet).map
          (fun p => (p.id, p.name, p.species))), 200) :=
  get_pets_exact_filter ⟨[⟨1, .str "Fido", .str "Dog"⟩, ⟨2, .str "Whiskers", .str "Cat"⟩], 3⟩
    "Cat" (by decide)

/-! ## C7: listing after a run of creates -/

theorem createdPets_length (bodies : List (Option Body)) :
    ∀ startId : Nat, (createdPets startId bodies).length = bodies.length := by
  induction bodies with
  | nil => intro s; rfl
  | cons b rest ih => intro s; simp [createdPets, ih]

theorem createdPets_map_id (bodies : List (Option Body)) :
    ∀ startId : Nat, (createdPets startId bodies).map Pet.id =
      List.range' startId bodies.length := by
  induction bodies with
  | nil => intro s; rfl
  | cons b rest ih => intro s; simp [createdPets, List.range', ih]

theorem runCreates_eq (bodies : List (Option Body)) :
    ∀ db : DB, (∀ b ∈ bodies, create_valid b = true) →
      runOps db (bodies.map Op.create) =
        ⟨db.pets ++ createdPets db.nextId bodies, db.nextId + bodies.length⟩ := by
  induction bodies with
  | nil =>
    intro db _
    simp [runOps, createdPets]
  | cons b rest ih =>
    intro db hv
    have hb : create_valid b = true := hv b (List.mem_cons_self _ _)
    have hstep : applyOp db (Op.create b) =
        ⟨db.pets ++ [⟨db.nextId, jindex (b.getD []) "name", jindex (b.getD []) "species"⟩],
         db.nextId + 1⟩ := by
      simp [applyOp, create_pet, hb]
    simp only [List.map_cons, runOps, hstep]
    rw [ih _ (fun b2 hb2 => hv b2 (List.mem_cons_of_mem _ hb2))]
    simp [createdPets, List.append_assoc]
    omega

/-- C7: listing the empty store yields the empty array, and after N
successful creates the (unfiltered) list holds exactly N records, the
k-th being the record created by the k-th request, with ids assigned in
increasing creation order. -/
theorem list_creation_order (bodies : List (Option Body))
    (hv : ∀ b ∈ bodies, create_valid b = true) :
    get_pets DB.empty none = (JBody.records [], 200) ∧
    (runOps DB.empty (bodies.map Op.create)).pets = createdPets 1 bodies ∧
    (get_pets (runOps DB.empty (bodies.map Op.create)) none).1 =
      JBody.records ((createdPets 1 bodies).map (fun p => (p.id, p.name, p.species))) ∧
    (createdPets 1 bodies).length = bodies.length ∧
    (createdPets 1 bodies).map Pet.id = List.range' 1 bodies.length := by
  have h := runCreates_eq bodies DB.empty hv
  have hpets : (runOps DB.empty (bodies.map Op.create)).pets = createdPets 1 bodies := by
    rw [h]; rfl
  refine ⟨rfl, hpets, ?_, createdPets_length bodies 1, createdPets_map_id bodies 1⟩
  rw [h]
  rfl

/-- C7 witness: two creates from the empty store. -/
theorem list_creation_order_witness :
    get_pets DB.empty none = (JBody.records [], 200) ∧
    (runOps DB.empty ([some [("name", JValue.str "Fido"), ("species", JValue.str "Dog")],
        some [("name", JValue.str "Whiskers"), ("species", JValue.str "Cat")]].map Op.create)).pets =
      createdPets 1 [some [("name", JValue.str "Fido"), ("species", JValue.str "Dog")],
        some [("name", JValue.str "Whiskers"), ("species", JValue.str "Cat")]] ∧
    (get_pets (runOps DB.empty ([some [("name", JValue.str "Fido"), ("species", JValue.str "Dog")],
        some [("name", JValue.str "Whiskers"), ("species", JValue.str "Cat")]].map Op.create)) none).1 =
      JBody.records ((createdPets 1 [some [("name", JValue.str "Fido"), ("species", JValue.str "Dog")],
        some [("name", JValue.str "Whiskers"), ("species", JValue.str "Cat")]]).map
          (fun p => (p.id, p.name, p.species))) ∧
    (createdPets 1 [some [("name", JValue.str "Fido"), ("species", JValue.str "Dog")],
        some [("name", JValue.str "Whiskers"), ("species", JValue.str "Cat")]]).length =
      [some [("name", JValue.str "Fido"), ("species", JValue.str "Dog")],
        some [("name", JValue.str "Whiskers"), ("species", JValue.str "Cat")]].length ∧
    (createdPets 1 [some [("name", JValue.str "Fido"), ("species", JValue.str "Dog")],
        some [("name", JValue.str "Whiskers"), ("species", JValue.str "Cat")]]).map Pet.id =
      List.range' 1 [some [("name", JValue.str "Fido"), ("species", JValue.str "Dog")],
        some [("name", JValue.str "Whiskers"), ("species", JValue.str "Cat")]].length :=
  list_creation_order _ (by decide)

/-! ## C8: non-null fields -/

theorem create_valid_fields {d : Option Body} (h : create_valid d = true) :
    jindex (d.getD []) "name" ≠ JValue.null ∧ jindex (d.getD []) "species" ≠ JValue.null := by
  match d with
  | none => simp [create_valid] at h
  | some b =>
    simp only [create_valid, Bool.and_eq_true] at h
    obtain ⟨⟨_, hn⟩, hs⟩ := h
    obtain ⟨n, hgn, _⟩ := truthyOpt_some_str hn
    obtain ⟨s, hgs, _⟩ := truthyOpt_some_str hs
    simp [jindex, hgn, hgs]

theorem jindex_mem_of_hasKey {d : Body} {k : String} (h : hasKey d k = true) :
    ∃ kv ∈ d, jindex d k = kv.2 := by
  simp only [hasKey, Option.isSome_iff_exists] at h
  obtain ⟨kv, hkv⟩ := h
  exact ⟨kv, List.mem_of_find?_eq_some hkv, by simp [jindex, getKey, hkv]⟩

theorem applyOp_no_null (db : DB) (op : Op) (hop : noNullWrites op = true)
    (hdb : ∀ p ∈ db.pets, p.name ≠ JValue.null ∧ p.species ≠ JValue.null) :
    ∀ p ∈ (applyOp db op).pets, p.name ≠ JValue.null ∧ p.species ≠ JValue.null := by
  cases op with
  | create d =>
    by_cases hv : create_valid d = true
    · intro p hp
      simp only [applyOp, create_pet, hv, if_true] at hp
      rcases List.mem_append.mp hp with h | h
      · exact hdb p h
      · have hpeq : p = ⟨db.nextId, jindex (d.getD []) "name", jindex (d.getD []) "species"⟩ := by
          simpa using h
        subst hpeq
        exact create_valid_fields hv
    · intro p hp
      simp only [applyOp, create_pet, eq_false_of_ne_true hv, if_false] at hp
      exact hdb p hp
  | update i d =>
    have hnull : ∀ kv ∈ d, kv.2 ≠ JValue.null := by
      simp only [noNullWrites, List.all_eq_true] at hop
      intro kv hkv
      simpa using hop kv hkv
    intro p hp
    cases hf : find_pet db i with
    | none =>
      simp only [applyOp, update_pet, hf] at hp
      exact hdb p hp
    | some pet =>
      have hpet := hdb pet (List.mem_of_find?_eq_some hf)
      have hname : (if hasKey d "name" then jindex d "name" else pet.name) ≠ JValue.null := by
        by_cases h1 : hasKey d "name"
        · obtain ⟨kv, hkvm, hkve⟩ := jindex_mem_of_hasKey h1
          rw [if_pos h1, hkve]
          exact hnull kv hkvm
        · rw [if_neg h1]
          exact hpet.1
      have hspecies : (if hasKey d "species" then jindex d "species" else pet.species) ≠ JValue.null := by
        by_cases h2 : hasKey d "species"
        · obtain ⟨kv, hkvm, hkve⟩ := jindex_mem_of_hasKey h2
          rw [if_pos h2, hkve]
          exact hnull kv hkvm
        · rw [if_neg h2]
          exact hpet.2
      by_cases h1 : hasKey d "name" <;> by_cases h2 : hasKey d "species" <;>
        · simp only [applyOp, update_pet, hf, h1, h2, if_true, if_false] at hp
          rcases List.mem_map.mp hp with ⟨q, hq, rfl⟩
          by_cases hqi : (q.id == i) = true <;>
            simp only [hqi, if_true, if_false] <;>
            first
              | exact hdb q hq
              | exact ⟨by simpa [h1, h2] using hname, by simpa [h1, h2] using hspecies⟩
  | delete i =>
    intro p hp
    cases hf : find_pet db i with
    | none =>
      simp only [applyOp, delete_pet, hf] at hp
      exact hdb p hp
    | some pet =>
      simp only [applyOp, delete_pet, hf] at hp
      exact hdb p (List.mem_filter.mp hp).1

theorem runOps_no_null (ops : List Op) : ∀ db : DB,
    (∀ op ∈ ops, noNullWrites op = true) →
    (∀ p ∈ db.pets, p.name ≠ JValue.null ∧ p.species ≠ JValue.null) →
    ∀ p ∈ (runOps db ops).pets, p.name ≠ JValue.null ∧ p.species ≠ JValue.null := by
  induction ops with
  | nil =>
    intro db _ hdb
    simpa [runOps] using hdb
  | cons op rest ih =>
    intro db hops hdb
    exact ih (applyOp db op) (fun o ho => hops o (List.mem_cons_of_mem _ ho))
      (applyOp_no_null db op (hops op (List.mem_cons_self _ _)) hdb)

/-- C8 counterexample: the claim as stated is false — an update whose
body carries a JSON `null` for `name` is a reachable operation and
stores a record with a null `name` (the handler assigns the value
unvalidated). -/
theorem null_field_reachable_cex :
    ∃ p ∈ (runOps DB.empty
      [Op.create (some [("name", JValue.str "Fido"), ("species", JValue.str "Dog")]),
       Op.update 1 [("name", JValue.null)]]).pets,
      p.name = JValue.null := by decide

/-- C8 (amended): provided no update request supplies a JSON `null` as
a field value, every record in every store reachable from the empty
store by create/update/delete operations has non-null `name` and
`species`. -/
theorem no_null_fields (ops : List Op) (h : ∀ op ∈ ops, noNullWrites op = true) :
    ∀ p ∈ (runOps DB.empty ops).pets, p.name ≠ JValue.null ∧ p.species ≠ JValue.null :=
  runOps_no_null ops DB.empty h (by simp [DB.empty])

/-- C8 witness: after a create, a string-valued update and a delete of
a missing id, the surviving record (id 1, name "Rex", species "Dog")
has non-null fields. -/
theorem no_null_fields_witness :
    (Pet.mk 1 (JValue.str "Rex") (JValue.str "Dog")).name ≠ JValue.null ∧
    (Pet.mk 1 (JValue.str "Rex") (JValue.str "Dog")).species ≠ JValue.null :=
  no_null_fields
    [Op.create (some [("name", JValue.str "Fido"), ("species", JValue.str "Dog")]),
     Op.update 1 [("name", JValue.str "Rex")], Op.delete 7]
    (by decide) (Pet.mk 1 (JValue.str "Rex") (JValue.str "Dog")) (by decide)


/-! ## C9: id assignment and immutability -/

theorem getKey_cons (hd : String × JValue) (tl : Body) (k : String) :
    getKey (hd :: tl) k = if hd.1 == k then some hd.2 else getKey tl k := by
  by_cases h : (hd.1 == k) = true <;> simp [getKey, List.find?_cons, h]

theorem getKey_stripKey (b : Body) (k k2 : String) (h : k ≠ k2) :
    getKey (stripKey b k2) k = getKey b k := by
  induction b with
  | nil => rfl
  | cons hd tl ih =>
    cases hk2 : (hd.1 == k2) with
    | true =>
      have heq : hd.1 = k2 := by simpa using hk2
      have h2 : (hd.1 == k) = false := by
        simp only [beq_eq_false_iff_ne, heq]
        exact fun hh => h hh.symm
      rw [getKey_cons, h2]
      simp only [Bool.false_eq_true, if_false]
      rw [← ih]
      simp [stripKey, List.filter_cons, heq]
    | false =>
      rw [getKey_cons]
      have hne : hd.1 ≠ k2 := ne_of_beq_false hk2
      have hkeep : stripKey (hd :: tl) k2 = hd :: stripKey tl k2 := by
        simp [stripKey, List.filter_cons, hne]
      rw [hkeep, getKey_cons, ih]

theorem hasKey_eq_isSome (b : Body) (k : String) :
    hasKey b k = (getKey b k).isSome := by
  simp [hasKey, getKey]

theorem jindex_stripKey (b : Body) (k k2 : String) (h : k ≠ k2) :
    jindex (stripKey b k2) k = jindex b k := by
  simp [jindex, getKey_stripKey b k k2 h]

theorem hasKey_stripKey (b : Body) (k k2 : String) (h : k ≠ k2) :
    hasKey (stripKey b k2) k = hasKey b k := by
  rw [hasKey_eq_isSome, hasKey_eq_isSome, getKey_stripKey b k k2 h]

theorem create_valid_stripKey (b : Body) :
    create_valid (some (stripKey b "id")) = create_valid (some b) := by
  have hn := getKey_stripKey b "name" "id" (by decide)
  have hs := getKey_stripKey b "species" "id" (by decide)
  by_cases htn : truthyOpt (getKey b "name") = true
  · by_cases hts : truthyOpt (getKey b "species") = true
    · obtain ⟨n, hgn, _⟩ := truthyOpt_some_str htn
      have hgn2 : getKey (stripKey b "id") "name" = some (.str n) := by rw [hn]; exact hgn
      simp [create_valid, getKey_isEmpty_false hgn, getKey_isEmpty_false hgn2,
        hn, hs, htn, hts]
    · have hts2 := eq_false_of_ne_true hts
      simp [create_valid, hn, hs, hts2]
  · have htn2 := eq_false_of_ne_true htn
    simp [create_valid, hn, hs, htn2]

theorem create_pet_stripKey (db : DB) (b : Body) :
    create_pet db (some (stripKey b "id")) = create_pet db (some b) := by
  by_cases hv : create_valid (some b) = true
  · have hv2 : create_valid (some (stripKey b "id")) = true := by
      rw [create_valid_stripKey]; exact hv
    simp [create_pet, hv, hv2, jindex_stripKey b "name" "id" (by decide),
      jindex_stripKey b "species" "id" (by decide)]
  · have hv1 := eq_false_of_ne_true hv
    have hv2 : create_valid (some (stripKey b "id")) = false := by
      rw [create_valid_stripKey]; exact hv1
    simp [create_pet, hv1, hv2]

theorem update_pet_stripKey (db : DB) (i : Nat) (d : Body) :
    update_pet db i (stripKey d "id") = update_pet db i d := by
  cases hf : find_pet db i with
  | none => simp [update_pet, hf]
  | some pet =>
    simp [update_pet, hf, hasKey_stripKey d "name" "id" (by decide),
      hasKey_stripKey d "species" "id" (by decide),
      jindex_stripKey d "name" "id" (by decide),
      jindex_stripKey d "species" "id" (by decide)]

theorem update_preserves_ids (db : DB) (i : Nat) (d : Body) :
    (update_pet db i d).1.pets.map Pet.id = db.pets.map Pet.id := by
  cases hf : find_pet db i with
  | none => simp [update_pet, hf]
  | some pet =>
    have hid : pet.id = i := by simpa using List.find?_some hf
    simp only [update_pet, hf, List.map_map]
    apply List.map_congr_left
    intro p hp
    by_cases h : (p.id == i) = true
    · have hpi : p.id = i := by simpa using h
      by_cases h1 : hasKey d "name" <;> by_cases h2 : hasKey d "species" <;>
        simp [Function.comp, h, h1, h2, hid, hpi]
    · simp [Function.comp, h]

theorem applyOp_nextId_le (db : DB) (op : Op) : db.nextId ≤ (applyOp db op).nextId := by
  cases op with
  | create d =>
    by_cases hv : create_valid d = true
    · simp [applyOp, create_pet, hv]
    · simp [applyOp, create_pet, eq_false_of_ne_true hv]
  | update i d =>
    cases hf : find_pet db i <;> simp [applyOp, update_pet, hf]
  | delete i =>
    cases hf : find_pet db i <;> simp [applyOp, delete_pet, hf]

theorem assignedIds_lb (ops : List Op) : ∀ db : DB, ∀ j ∈ assignedIds db ops, db.nextId ≤ j := by
  induction ops with
  | nil =>
    intro db j hj
    simp [assignedIds] at hj
  | cons op rest ih =>
    intro db j hj
    simp only [assignedIds] at hj
    rcases List.mem_append.mp hj with hmem | hmem
    · cases op with
      | create d =>
        by_cases hv : create_valid d = true
        · simp only [hv, if_true, List.mem_singleton] at hmem
          exact le_of_eq hmem.symm
        · simp [eq_false_of_ne_true hv] at hmem
      | update i d => simp at hmem
      | delete i => simp at hmem
    · exact le_trans (applyOp_nextId_le db op) (ih (applyOp db op) j hmem)

theorem assignedIds_nodup (ops : List Op) : ∀ db : DB, (assignedIds db ops).Nodup := by
  induction ops with
  | nil => intro db; simp [assignedIds]
  | cons op rest ih =>
    intro db
    simp only [assignedIds]
    cases op with
    | create d =>
      by_cases hv : create_valid d = true
      · simp only [hv, if_true, List.singleton_append, List.nodup_cons]
        constructor
        · intro hmem
          have hle := assignedIds_lb rest _ db.nextId hmem
          have : (applyOp db (Op.create d)).nextId = db.nextId + 1 := by
            simp [applyOp, create_pet, hv]
          omega
        · exact ih _
      · simpa [eq_false_of_ne_true hv] using ih _
    | update i d => simpa using ih _
    | delete i => simpa using ih _

/-- C9: the record id is controlled entirely by the storage layer: an
`id` key in a create or update body does not change the outcome, update
never changes any stored id, and the ids assigned by successful creates
over any lifetime of the store (any operation sequence from the empty
store) are pairwise distinct — never reused, even after deletions. -/
theorem pet_id_integrity :
    (∀ (db : DB) (b : Body), create_pet db (some (stripKey b "id")) = create_pet db (some b)) ∧
    (∀ (db : DB) (i : Nat) (d : Body), update_pet db i (stripKey d "id") = update_pet db i d) ∧
    (∀ (db : DB) (i : Nat) (d : Body),
      (update_pet db i d).1.pets.map Pet.id = db.pets.map Pet.id) ∧
    (∀ ops : List Op, (assignedIds DB.empty ops).Nodup) :=
  ⟨create_pet_stripKey, update_pet_stripKey, update_preserves_ids,
   fun ops => assignedIds_nodup ops DB.empty⟩
